import Mathlib

/-!
Shallow embedding of `src/packages/eac3/src/eac3-bridge.c`, a thin bridge
exposing decoder/encoder sessions over the external avcodec library.

The external library (avcodec_find_decoder, avcodec_open2, avcodec_send_packet,
avcodec_receive_frame, av_frame_alloc, ...) is not part of this repository;
each bridge function is therefore parameterized by an oracle structure whose
fields record the external calls' results (return codes, the decoded frame's
contents, the produced packet's bytes, allocation success).  The bridge's own
logic — control flow, buffer marshaling, field updates — is translated
line by line from the C source.

Caller-supplied buffers are modelled as total functions `Nat → α`; a write to
one cell is a pointwise function update, matching the C stores.  Heap
allocation and release performed during session creation and destruction are
recorded as an event trace, so that leak-freedom is expressible.  Pointers
stored in session fields are modelled by `MemRef`, distinguishing
codec-owned memory from caller buffers identified by a numeric id.
-/

namespace EAC3Bridge

/-- Tags for the heap objects the bridge allocates or releases. -/
inductive AllocTag where
  | session
  | ctx
  | frame
  | packet
  | frameBuf
deriving DecidableEq, Repr

/-- One heap event performed during init or close. -/
inductive HeapEvent where
  | alloc : AllocTag → HeapEvent
  | free : AllocTag → HeapEvent
deriving DecidableEq, Repr

/-- A reference held in a session field: memory owned by the external codec,
or a caller-supplied buffer identified by a numeric id. -/
inductive MemRef where
  | codecOwned : MemRef
  | caller : Nat → MemRef
deriving DecidableEq, Repr

/-- Store value `v` at index `idx` of a flat buffer (one C array store). -/
def writeSample {α : Type} (buf : Nat → α) (idx : Nat) (v : α) : Nat → α :=
  fun j => if j = idx then v else buf j

/-- The inner loop of `decode_packet`'s interleave nest at row `i`:
`for (ch = 0; ch < n; ch++) output_buf[i * channels + ch] = extended_data[ch][i]`.
Writes are performed for `ch = 0, 1, ..., n-1` in order (the write for the
largest channel index is applied last). -/
def interleaveRow {α : Type} (extData : Nat → Nat → α) (channels i : Nat) :
    Nat → (Nat → α) → Nat → α
  | 0, buf => buf
  | n + 1, buf =>
      writeSample (interleaveRow extData channels i n buf)
        (i * channels + n) (extData n i)

/-- The outer loop of `decode_packet`'s interleave nest:
`for (i = 0; i < f; i++) for (ch = 0; ch < channels; ch++) ...`,
rows executed for `i = 0, 1, ..., f-1` in order. -/
def interleave {α : Type} (extData : Nat → Nat → α) (channels : Nat) :
    Nat → (Nat → α) → Nat → α
  | 0, buf => buf
  | f + 1, buf => interleaveRow extData channels f channels (interleave extData channels f buf)

/-- Store value `v` into planar storage at channel `ch`, sample `i`
(one store `channel_data[i] = v` where `channel_data = extended_data[ch]`). -/
def writePlanar {α : Type} (d : Nat → Nat → α) (ch i : Nat) (v : α) : Nat → Nat → α :=
  fun c j => if c = ch ∧ j = i then v else d c j

/-- The inner loop of `encode_samples`'s de-interleave nest at channel `ch`:
`for (i = 0; i < n; i++) channel_data[i] = input_buf[i * channels + ch]`. -/
def deinterleaveCh {α : Type} (input : Nat → α) (channels ch : Nat) :
    Nat → (Nat → Nat → α) → Nat → Nat → α
  | 0, d => d
  | n + 1, d =>
      writePlanar (deinterleaveCh input channels ch n d) ch n (input (n * channels + ch))

/-- The outer loop of `encode_samples`'s de-interleave nest:
`for (ch = 0; ch < c; ch++) for (i = 0; i < num_frames; i++) ...`. -/
def deinterleave {α : Type} (input : Nat → α) (channels num_frames : Nat) :
    Nat → (Nat → Nat → α) → Nat → Nat → α
  | 0, d => d
  | c + 1, d =>
      deinterleaveCh input channels c num_frames (deinterleave input channels num_frames c d)

/-- `memcpy(dst, src, n)` on byte buffers: indices below `n` take the source
byte, all other indices keep the destination's previous contents. -/
def memcpyBytes (dst src : Nat → Nat) (n : Nat) : Nat → Nat :=
  fun j => if j < n then src j else dst j

/-- The `decoder_state` struct together with the observable fields of the
objects it owns: the context's sample rate and channel count set at creation,
whether the frame and packet holders were allocated, the scratch packet's
data pointer and size, and whether the scratch frame currently holds
codec-internal references. -/
structure decoder_state where
  ctx_sample_rate : Nat
  ctx_channels : Nat
  frame : Bool
  packet : Bool
  packet_data : Option MemRef
  packet_size : Nat
  frame_refs : Bool
deriving DecidableEq, Repr

/-- The decoded frame delivered by `avcodec_receive_frame`: sample count,
channel count, sample rate, and the planar sample data
(`extended_data ch i` = sample `i` of channel `ch`). -/
structure DecodedFrame (α : Type) where
  nb_samples : Nat
  nb_channels : Nat
  sample_rate : Nat
  extended_data : Nat → Nat → α

/-- Results of the external calls made by one `decode_packet` call:
the return codes of `avcodec_send_packet` and `avcodec_receive_frame`,
and the frame delivered on success. -/
structure DecodeOracle (α : Type) where
  sendRet : Int
  receiveRet : Int
  frame : DecodedFrame α

/-- Everything observable after a `decode_packet` call: the return value, the
updated session state, the caller's output buffer, and the three
out-parameters (`none` when the call did not write them). -/
structure DecodeResult (α : Type) where
  ret : Int
  state : decoder_state
  output : Nat → α
  out_frames : Option Nat
  out_sample_rate : Option Nat
  out_channels : Option Nat

/-- Results of the external calls made by `init_decoder`: whether
`avcodec_find_decoder` found a codec, whether `malloc`,
`avcodec_alloc_context3`, `av_frame_alloc` and `av_packet_alloc` returned
non-null, and whether `avcodec_open2` succeeded. -/
structure InitOracle where
  codecFound : Bool
  mallocOk : Bool
  ctxAllocOk : Bool
  openOk : Bool
  frameAllocOk : Bool
  packetAllocOk : Bool
deriving DecidableEq, Repr

/-- Outcome of a session-creation call: either a null-pointer dereference
(`crash`, undefined behaviour in the C source), or a returned handle
(`none` for NULL) together with the trace of heap events performed. -/
inductive InitResult (σ : Type) where
  | crash : InitResult σ
  | ret : Option σ → List HeapEvent → InitResult σ

/-- The session handle returned by an init call, `none` for NULL or crash. -/
def retSession {σ : Type} : InitResult σ → Option σ
  | InitResult.crash => none
  | InitResult.ret s _ => s

/-- The heap-event trace of an init call (empty on crash). -/
def retEvents {σ : Type} : InitResult σ → List HeapEvent
  | InitResult.crash => []
  | InitResult.ret _ evs => evs

/-- `init_decoder(codec_id, sample_rate, channels)`.  The codec lookup,
allocation and open results come from the oracle.  A failed `malloc` or
`avcodec_alloc_context3` is followed in the source by a store through the
null pointer (`state->ctx = ...` resp. `state->ctx->sample_rate = ...`),
modelled as `crash`.  A failed `avcodec_open2` releases the context and the
session and returns NULL.  The results of `av_frame_alloc` and
`av_packet_alloc` are not checked: they become the session's holder flags. -/
def init_decoder (o : InitOracle) (sample_rate channels : Nat) : InitResult decoder_state :=
  if o.codecFound then
    if o.mallocOk then
      if o.ctxAllocOk then
        if o.openOk then
          InitResult.ret (some
            { ctx_sample_rate := sample_rate, ctx_channels := channels,
              frame := o.frameAllocOk, packet := o.packetAllocOk,
              packet_data := none, packet_size := 0, frame_refs := false })
            ([HeapEvent.alloc AllocTag.session, HeapEvent.alloc AllocTag.ctx]
              ++ (if o.frameAllocOk then [HeapEvent.alloc AllocTag.frame] else [])
              ++ (if o.packetAllocOk then [HeapEvent.alloc AllocTag.packet] else []))
        else
          InitResult.ret none
            [HeapEvent.alloc AllocTag.session, HeapEvent.alloc AllocTag.ctx,
             HeapEvent.free AllocTag.ctx, HeapEvent.free AllocTag.session]
      else InitResult.crash
    else InitResult.crash
  else InitResult.ret none []

/-- `decode_packet(state, input_buf, input_size, output_buf, &frames, &rate,
&channels)`.  The scratch packet is unreffed and attached to the caller's
input buffer; on send or receive failure the external return code is returned
unchanged with no out-parameter and no output write; on success the decoded
planar frame is interleaved into the output buffer (substituting the
context's rate/channels when the frame reports zero), the out-parameters are
written, the frame is unreffed, and 0 is returned. -/
def decode_packet {α : Type} (st : decoder_state) (input_ref input_size : Nat)
    (output_buf : Nat → α) (o : DecodeOracle α) : DecodeResult α :=
  let st1 : decoder_state :=
    { st with packet_data := some (MemRef.caller input_ref), packet_size := input_size }
  if o.sendRet < 0 then
    { ret := o.sendRet, state := st1, output := output_buf,
      out_frames := none, out_sample_rate := none, out_channels := none }
  else if o.receiveRet < 0 then
    { ret := o.receiveRet, state := st1, output := output_buf,
      out_frames := none, out_sample_rate := none, out_channels := none }
  else
    let frames := o.frame.nb_samples
    let channels := if o.frame.nb_channels = 0 then st.ctx_channels else o.frame.nb_channels
    let sample_rate := if o.frame.sample_rate = 0 then st.ctx_sample_rate else o.frame.sample_rate
    { ret := 0,
      state := { st1 with frame_refs := false },
      output := interleave o.frame.extended_data channels frames output_buf,
      out_frames := some frames,
      out_sample_rate := some sample_rate,
      out_channels := some channels }

/-- The holder fields of a session as seen by `close_decoder`/`close_encoder`:
whether the frame, packet, and context pointers are non-null. -/
structure CloseState where
  frame : Bool
  packet : Bool
  ctx : Bool
deriving DecidableEq, Repr

/-- `close_decoder(state)`: a no-op on NULL; otherwise each of the frame,
packet, and context is released only if non-null, and the session struct is
freed last.  The value is the trace of release events performed. -/
def close_decoder (s : Option CloseState) : List HeapEvent :=
  match s with
  | none => []
  | some st =>
      (if st.frame then [HeapEvent.free AllocTag.frame] else [])
        ++ (if st.packet then [HeapEvent.free AllocTag.packet] else [])
        ++ (if st.ctx then [HeapEvent.free AllocTag.ctx] else [])
        ++ [HeapEvent.free AllocTag.session]

/-- `close_encoder(state)`: textually identical to `close_decoder`. -/
def close_encoder (s : Option CloseState) : List HeapEvent :=
  match s with
  | none => []
  | some st =>
      (if st.frame then [HeapEvent.free AllocTag.frame] else [])
        ++ (if st.packet then [HeapEvent.free AllocTag.packet] else [])
        ++ (if st.ctx then [HeapEvent.free AllocTag.ctx] else [])
        ++ [HeapEvent.free AllocTag.session]

/-- The `encoder_state` struct together with the observable fields of the
objects it owns: the context fields set at creation, the scratch frame's
fields (active sample count, sample rate, channel count, whether
`av_frame_get_buffer` backed it and with how many samples per channel, and
its planar sample contents), and the scratch packet's holder flag, data
pointer and size.  Sampled values have type `α`. -/
structure encoder_state (α : Type) where
  ctx_sample_rate : Nat
  ctx_channels : Nat
  bit_rate : Nat
  frame_nb_samples : Nat
  frame_sample_rate : Nat
  frame_channels : Nat
  frame_backed : Bool
  frame_buf_size : Nat
  frame_data : Nat → Nat → α
  packet : Bool
  packet_data : Option MemRef
  packet_size : Nat

/-- Results of the external calls made by `init_encoder`: codec lookup,
the four allocations, `avcodec_open2`, `av_frame_get_buffer`, and the
`frame_size` the opened context reports (the codec's frame period). -/
structure EncInitOracle where
  codecFound : Bool
  mallocOk : Bool
  ctxAllocOk : Bool
  openOk : Bool
  frameAllocOk : Bool
  getBufferOk : Bool
  packetAllocOk : Bool
  frame_size : Nat
deriving DecidableEq, Repr

/-- `init_encoder(codec_id, sample_rate, channels, bitrate)`.  As for the
decoder, a failed `malloc` or `avcodec_alloc_context3` is followed by a store
through the null pointer (`crash`), and so is a failed `av_frame_alloc`
(`state->frame->nb_samples = ...`).  A failed `avcodec_open2` releases the
context and the session and returns NULL.  The scratch frame's sample count
is set to the context's `frame_size`, its rate and layout copied from the
context, and `av_frame_get_buffer` is called with its result unchecked, as is
`av_packet_alloc`'s.  `undef` stands for the uninitialized contents of the
freshly allocated sample storage. -/
def init_encoder {α : Type} (o : EncInitOracle) (sample_rate channels bitrate : Nat)
    (undef : α) : InitResult (encoder_state α) :=
  if o.codecFound then
    if o.mallocOk then
      if o.ctxAllocOk then
        if o.openOk then
          if o.frameAllocOk then
            InitResult.ret (some
              { ctx_sample_rate := sample_rate, ctx_channels := channels,
                bit_rate := bitrate,
                frame_nb_samples := o.frame_size, frame_sample_rate := sample_rate,
                frame_channels := channels,
                frame_backed := o.getBufferOk,
                frame_buf_size := if o.getBufferOk then o.frame_size else 0,
                frame_data := fun _ _ => undef,
                packet := o.packetAllocOk, packet_data := none, packet_size := 0 })
              ([HeapEvent.alloc AllocTag.session, HeapEvent.alloc AllocTag.ctx,
                HeapEvent.alloc AllocTag.frame]
                ++ (if o.getBufferOk then [HeapEvent.alloc AllocTag.frameBuf] else [])
                ++ (if o.packetAllocOk then [HeapEvent.alloc AllocTag.packet] else []))
          else InitResult.crash
        else
          InitResult.ret none
            [HeapEvent.alloc AllocTag.session, HeapEvent.alloc AllocTag.ctx,
             HeapEvent.free AllocTag.ctx, HeapEvent.free AllocTag.session]
      else InitResult.crash
    else InitResult.crash
  else InitResult.ret none []

/-- Results of the external calls made by one `encode_samples` call: the
return codes of `avcodec_send_frame` and `avcodec_receive_packet`, and the
size and bytes of the packet delivered on success. -/
structure EncodeOracle where
  sendRet : Int
  receiveRet : Int
  packet_size : Nat
  packet_bytes : Nat → Nat

/-- Everything observable after an `encode_samples` call: the return value,
the updated session state, and the caller's output byte buffer. -/
structure EncodeResult (α : Type) where
  ret : Int
  state : encoder_state α
  output : Nat → Nat

/-- `encode_samples(state, input_buf, num_frames, output_buf,
output_buf_size)`.  The caller's interleaved input is de-interleaved into the
scratch frame's planar storage and the frame's active sample count set to
`num_frames`; on send or receive failure the external return code is returned
unchanged; if the produced packet exceeds the caller's capacity the call
returns -1 without touching the output buffer; otherwise the packet's bytes
are copied out, the packet unreffed, and its size returned. -/
def encode_samples {α : Type} (st : encoder_state α) (input_buf : Nat → α)
    (num_frames : Nat) (output_buf : Nat → Nat) (output_buf_size : Nat)
    (o : EncodeOracle) : EncodeResult α :=
  let channels := st.frame_channels
  let st1 : encoder_state α :=
    { st with frame_data := deinterleave input_buf channels num_frames channels st.frame_data,
              frame_nb_samples := num_frames }
  if o.sendRet < 0 then
    { ret := o.sendRet, state := st1, output := output_buf }
  else if o.receiveRet < 0 then
    { ret := o.receiveRet, state := st1, output := output_buf }
  else
    let st2 : encoder_state α :=
      { st1 with packet_data := some MemRef.codecOwned, packet_size := o.packet_size }
    if (o.packet_size : Int) > (output_buf_size : Int) then
      { ret := -1, state := st2, output := output_buf }
    else
      { ret := (o.packet_size : Int),
        state := { st2 with packet_data := none, packet_size := 0 },
        output := memcpyBytes output_buf o.packet_bytes o.packet_size }

/-! ### Lemmas about the interleave loop of `decode_packet` -/

/-- Within one row of the interleave nest, the write for channel `ch < n`
lands at index `i * channels + ch` and is not overwritten by the row's later
writes. -/
theorem interleaveRow_write {α : Type} (extData : Nat → Nat → α) (channels i : Nat) :
    ∀ (n : Nat) (buf : Nat → α) (ch : Nat), ch < n →
      interleaveRow extData channels i n buf (i * channels + ch) = extData ch i := by
  intro n
  induction n with
  | zero => intro buf ch h; exact absurd h (Nat.not_lt_zero ch)
  | succ m ih =>
      intro buf ch h
      by_cases hc : ch = m
      · subst hc
        simp [interleaveRow, writeSample]
      · have hlt : ch < m := Nat.lt_of_le_of_ne (Nat.lt_succ_iff.mp h) hc
        have hne : i * channels + ch ≠ i * channels + m := by
          intro he
          exact hc (Nat.add_left_cancel he)
        simp only [interleaveRow, writeSample, if_neg hne]
        exact ih buf ch hlt

/-- A row of the interleave nest leaves every index it does not target
unchanged. -/
theorem interleaveRow_other {α : Type} (extData : Nat → Nat → α) (channels i : Nat) :
    ∀ (n : Nat) (buf : Nat → α) (idx : Nat), (∀ ch, ch < n → idx ≠ i * channels + ch) →
      interleaveRow extData channels i n buf idx = buf idx := by
  intro n
  induction n with
  | zero => intro buf idx h; rfl
  | succ m ih =>
      intro buf idx h
      have hne : idx ≠ i * channels + m := h m (Nat.lt_succ_self m)
      simp only [interleaveRow, writeSample, if_neg hne]
      exact ih buf idx (fun ch hch => h ch (Nat.lt_succ_of_lt hch))

/-- The full interleave nest realises the interleave law: for `i < f` and
`ch < channels`, index `i * channels + ch` of the produced buffer holds
sample `i` of planar channel `ch`. -/
theorem interleave_write {α : Type} (extData : Nat → Nat → α) (channels : Nat) :
    ∀ (f : Nat) (buf : Nat → α) (i ch : Nat), i < f → ch < channels →
      interleave extData channels f buf (i * channels + ch) = extData ch i := by
  intro f
  induction f with
  | zero => intro buf i ch h hch; exact absurd h (Nat.not_lt_zero i)
  | succ g ih =>
      intro buf i ch hi hch
      by_cases hig : i = g
      · subst hig
        exact interleaveRow_write extData channels i channels _ ch hch
      · have hlt : i < g := Nat.lt_of_le_of_ne (Nat.lt_succ_iff.mp hi) hig
        have hother : ∀ c, c < channels → i * channels + ch ≠ g * channels + c := by
          intro c hc he
          have h1 : i * channels + ch < (i + 1) * channels := by
            rw [Nat.succ_mul]
            exact Nat.add_lt_add_left hch _
          have h2 : (i + 1) * channels ≤ g * channels :=
            Nat.mul_le_mul_right channels hlt
          have h3 : i * channels + ch < g * channels + c :=
            Nat.lt_of_lt_of_le h1 (Nat.le_trans h2 (Nat.le_add_right _ c))
          exact absurd he (Nat.ne_of_lt h3)
        show interleaveRow extData channels g channels
          (interleave extData channels g buf) (i * channels + ch) = extData ch i
        rw [interleaveRow_other extData channels g channels _ _ hother]
        exact ih buf i ch hlt hch

/-- The full interleave nest writes no index at or beyond
`f * channels`: all such indices keep the output buffer's prior contents. -/
theorem interleave_untouched {α : Type} (extData : Nat → Nat → α) (channels : Nat) :
    ∀ (f : Nat) (buf : Nat → α) (idx : Nat), f * channels ≤ idx →
      interleave extData channels f buf idx = buf idx := by
  intro f
  induction f with
  | zero => intro buf idx h; rfl
  | succ g ih =>
      intro g2
      intro idx h
      have hother : ∀ c, c < channels → idx ≠ g * channels + c := by
        intro c hc he
        have h1 : g * channels + c < (g + 1) * channels := by
          rw [Nat.succ_mul]
          exact Nat.add_lt_add_left hc _
        rw [he] at h
        exact absurd h (Nat.not_le_of_lt h1)
      show interleaveRow extData channels g channels
        (interleave extData channels g g2) idx = g2 idx
      rw [interleaveRow_other extData channels g channels _ idx hother]
      exact ih g2 idx (Nat.le_trans (Nat.mul_le_mul_right channels (Nat.le_succ g)) h)

/-! ### Lemmas about the de-interleave loop of `encode_samples` -/

/-- One channel's pass of the de-interleave nest reads only input indices of
the form `i * channels + ch` with `i < n`; two inputs agreeing below
`bound * channels` (with `n ≤ bound`, `ch < channels`) give equal results. -/
theorem deinterleaveCh_congr {α : Type} (in1 in2 : Nat → α) (channels ch bound : Nat)
    (hch : ch < channels) (hagree : ∀ j, j < bound * channels → in1 j = in2 j) :
    ∀ (n : Nat), n ≤ bound → ∀ (d : Nat → Nat → α),
      deinterleaveCh in1 channels ch n d = deinterleaveCh in2 channels ch n d := by
  intro n
  induction n with
  | zero => intro h d; rfl
  | succ m ih =>
      intro h d
      have hidx : m * channels + ch < bound * channels := by
        have h1 : m * channels + ch < (m + 1) * channels := by
          rw [Nat.succ_mul]
          exact Nat.add_lt_add_left hch _
        exact Nat.lt_of_lt_of_le h1 (Nat.mul_le_mul_right channels h)
      simp only [deinterleaveCh]
      rw [ih (Nat.le_of_succ_le h) d, hagree _ hidx]

/-- The full de-interleave nest over `c ≤ channels` channels reads only input
indices strictly below `num_frames * channels`: two inputs agreeing on those
indices produce identical planar contents. -/
theorem deinterleave_congr {α : Type} (in1 in2 : Nat → α) (channels num_frames : Nat)
    (hagree : ∀ j, j < num_frames * channels → in1 j = in2 j) :
    ∀ (c : Nat), c ≤ channels → ∀ (d : Nat → Nat → α),
      deinterleave in1 channels num_frames c d = deinterleave in2 channels num_frames c d := by
  intro c
  induction c with
  | zero => intro h d; rfl
  | succ m ih =>
      intro h d
      simp only [deinterleave]
      rw [ih (Nat.le_of_succ_le h) d,
        deinterleaveCh_congr in1 in2 channels m num_frames h hagree num_frames
          (Nat.le_refl num_frames)]

/-! ### Path characterizations of `decode_packet` -/

/-- On submission failure, `decode_packet` returns the send call's code. -/
theorem decode_packet_send_fail {α : Type} (st : decoder_state) (input_ref input_size : Nat)
    (output_buf : Nat → α) (o : DecodeOracle α) (hs : o.sendRet < 0) :
    decode_packet st input_ref input_size output_buf o =
      { ret := o.sendRet,
        state := { st with packet_data := some (MemRef.caller input_ref),
                           packet_size := input_size },
        output := output_buf,
        out_frames := none, out_sample_rate := none, out_channels := none } := by
  simp only [decode_packet, if_pos hs]

/-- On reception failure, `decode_packet` returns the receive call's code. -/
theorem decode_packet_receive_fail {α : Type} (st : decoder_state) (input_ref input_size : Nat)
    (output_buf : Nat → α) (o : DecodeOracle α) (hs : ¬ o.sendRet < 0)
    (hr : o.receiveRet < 0) :
    decode_packet st input_ref input_size output_buf o =
      { ret := o.receiveRet,
        state := { st with packet_data := some (MemRef.caller input_ref),
                           packet_size := input_size },
        output := output_buf,
        out_frames := none, out_sample_rate := none, out_channels := none } := by
  simp only [decode_packet, if_neg hs, if_pos hr]

/-- When both external calls succeed, `decode_packet` returns 0, interleaves
the decoded frame into the output buffer, and writes the out-parameters with
the zero-metadata fallbacks applied. -/
theorem decode_packet_success {α : Type} (st : decoder_state) (input_ref input_size : Nat)
    (output_buf : Nat → α) (o : DecodeOracle α) (hs : ¬ o.sendRet < 0)
    (hr : ¬ o.receiveRet < 0) :
    decode_packet st input_ref input_size output_buf o =
      { ret := 0,
        state := { st with packet_data := some (MemRef.caller input_ref),
                           packet_size := input_size, frame_refs := false },
        output := interleave o.frame.extended_data
          (if o.frame.nb_channels = 0 then st.ctx_channels else o.frame.nb_channels)
          o.frame.nb_samples output_buf,
        out_frames := some o.frame.nb_samples,
        out_sample_rate := some (if o.frame.sample_rate = 0 then st.ctx_sample_rate
          else o.frame.sample_rate),
        out_channels := some (if o.frame.nb_channels = 0 then st.ctx_channels
          else o.frame.nb_channels) } := by
  simp only [decode_packet, if_neg hs, if_neg hr]

/-- A `decode_packet` call that returned 0 took the success path: neither
external call reported an error. -/
theorem decode_packet_ret_zero {α : Type} (st : decoder_state) (input_ref input_size : Nat)
    (output_buf : Nat → α) (o : DecodeOracle α)
    (hret : (decode_packet st input_ref input_size output_buf o).ret = 0) :
    ¬ o.sendRet < 0 ∧ ¬ o.receiveRet < 0 := by
  by_cases hs : o.sendRet < 0
  · rw [decode_packet_send_fail st input_ref input_size output_buf o hs] at hret
    exact absurd (show o.sendRet = 0 from hret) (by omega)
  · by_cases hr : o.receiveRet < 0
    · rw [decode_packet_receive_fail st input_ref input_size output_buf o hs hr] at hret
      exact absurd (show o.receiveRet = 0 from hret) (by omega)
    · exact ⟨hs, hr⟩

/-- A session created successfully by `init_decoder` carries the sample rate
and channel count that were passed to `init_decoder`, empty packet fields and
a clean frame. -/
theorem init_decoder_some_fields (o : InitOracle) (sr ch : Nat) (st : decoder_state)
    (evs : List HeapEvent) (h : init_decoder o sr ch = InitResult.ret (some st) evs) :
    st = { ctx_sample_rate := sr, ctx_channels := ch,
           frame := o.frameAllocOk, packet := o.packetAllocOk,
           packet_data := none, packet_size := 0, frame_refs := false } := by
  unfold init_decoder at h
  split at h
  · split at h
    · split at h
      · split at h
        · injection h with h1 h2
          injection h1 with h3
          exact h3.symm
        · injection h with h1 h2
          exact Option.noConfusion h1
      · exact InitResult.noConfusion h
    · exact InitResult.noConfusion h
  · injection h with h1 h2
    exact Option.noConfusion h1

/-- Concrete decoder session used by the witnesses: 48000 Hz, 2 channels. -/
def sampleDecState : decoder_state :=
  { ctx_sample_rate := 48000, ctx_channels := 2, frame := true, packet := true,
    packet_data := none, packet_size := 0, frame_refs := false }

/-- Concrete decoded frame used by the witnesses: 3 samples, 2 channels,
sample `i` of channel `ch` holding `10 * ch + i`. -/
def sampleFrame : DecodedFrame Nat :=
  { nb_samples := 3, nb_channels := 2, sample_rate := 48000,
    extended_data := fun ch i => 10 * ch + i }

/-- Concrete successful decode oracle used by the witnesses. -/
def sampleDecOracle : DecodeOracle Nat :=
  { sendRet := 0, receiveRet := 0, frame := sampleFrame }

/-- Claim C1: for every successful `decode_packet` call yielding frame count
`F` and channel count `C`, the caller's output buffer afterwards satisfies
`output_buf[i * C + ch] = extended_data[ch][i]` for all `i < F`, `ch < C`. -/
theorem decode_packet_interleave_law {α : Type} (st : decoder_state)
    (input_ref input_size : Nat) (output_buf : Nat → α) (o : DecodeOracle α)
    (F C i ch : Nat)
    (hret : (decode_packet st input_ref input_size output_buf o).ret = 0)
    (hF : (decode_packet st input_ref input_size output_buf o).out_frames = some F)
    (hC : (decode_packet st input_ref input_size output_buf o).out_channels = some C)
    (hi : i < F) (hch : ch < C) :
    (decode_packet st input_ref input_size output_buf o).output (i * C + ch) =
      o.frame.extended_data ch i := by
  obtain ⟨hs, hr⟩ := decode_packet_ret_zero st input_ref input_size output_buf o hret
  rw [decode_packet_success st input_ref input_size output_buf o hs hr] at hF hC ⊢
  simp only [Option.some.injEq] at hF hC
  subst hF
  subst hC
  exact interleave_write o.frame.extended_data _ _ output_buf i ch hi hch

/-- Claim C1 witness: decoding the sample frame reports `F = 3`, `C = 2`, and
the output cell at index `1 * 2 + 1` holds sample 1 of channel 1, i.e. 11. -/
theorem decode_packet_interleave_law_witness :
    (decode_packet sampleDecState 7 5 (fun _ => (99 : Nat)) sampleDecOracle).output
      (1 * 2 + 1) = 11 :=
  decode_packet_interleave_law sampleDecState 7 5 (fun _ => (99 : Nat)) sampleDecOracle
    3 2 1 1 (by decide) rfl rfl (by decide) (by decide)

/-- Claim C10: a `decode_packet` call that returns 0 reporting frame count
`F` and channel count `C` modifies no output-buffer cell at index `F * C` or
beyond: every such cell keeps its previous contents. -/
theorem decode_packet_output_write_bound {α : Type} (st : decoder_state)
    (input_ref input_size : Nat) (output_buf : Nat → α) (o : DecodeOracle α)
    (F C idx : Nat)
    (hret : (decode_packet st input_ref input_size output_buf o).ret = 0)
    (hF : (decode_packet st input_ref input_size output_buf o).out_frames = some F)
    (hC : (decode_packet st input_ref input_size output_buf o).out_channels = some C)
    (hidx : F * C ≤ idx) :
    (decode_packet st input_ref input_size output_buf o).output idx = output_buf idx := by
  obtain ⟨hs, hr⟩ := decode_packet_ret_zero st input_ref input_size output_buf o hret
  rw [decode_packet_success st input_ref input_size output_buf o hs hr] at hF hC ⊢
  simp only [Option.some.injEq] at hF hC
  subst hF
  subst hC
  exact interleave_untouched o.frame.extended_data _ _ output_buf idx hidx

/-- Claim C10 witness: with `F = 3`, `C = 2`, the output cell at index 6 still
holds the prior contents 99 after a successful decode. -/
theorem decode_packet_output_write_bound_witness :
    (decode_packet sampleDecState 7 5 (fun _ => (99 : Nat)) sampleDecOracle).output 6 = 99 :=
  decode_packet_output_write_bound sampleDecState 7 5 (fun _ => (99 : Nat)) sampleDecOracle
    3 2 6 (by decide) rfl rfl (by decide)

/-- Claim C3: on a session created by `init_decoder`, every successful
`decode_packet` call whose decoded frame reports a zero sample rate (resp.
zero channel count) reports through the out-parameters the sample rate
(resp. channel count) passed to `init_decoder`; moreover the context values
a decode call falls back on are themselves never changed by a call. -/
theorem decode_packet_metadata_fallback {α : Type} (io : InitOracle) (sr ch : Nat)
    (st : decoder_state) (evs : List HeapEvent)
    (hinit : init_decoder io sr ch = InitResult.ret (some st) evs)
    (input_ref input_size : Nat) (output_buf : Nat → α) (o : DecodeOracle α)
    (hret : (decode_packet st input_ref input_size output_buf o).ret = 0) :
    (o.frame.sample_rate = 0 →
      (decode_packet st input_ref input_size output_buf o).out_sample_rate = some sr)
    ∧ (o.frame.nb_channels = 0 →
      (decode_packet st input_ref input_size output_buf o).out_channels = some ch)
    ∧ (decode_packet st input_ref input_size output_buf o).state.ctx_sample_rate = sr
    ∧ (decode_packet st input_ref input_size output_buf o).state.ctx_channels = ch := by
  obtain ⟨hs, hr⟩ := decode_packet_ret_zero st input_ref input_size output_buf o hret
  have hst := init_decoder_some_fields io sr ch st evs hinit
  rw [decode_packet_success st input_ref input_size output_buf o hs hr]
  subst hst
  refine ⟨fun h0 => ?_, fun h0 => ?_, rfl, rfl⟩
  · simp [h0]
  · simp [h0]

/-- Claim C3 witness: on a freshly created 48000 Hz / 2 channel session, a
frame reporting zero rate and zero channels is reported as 48000 Hz and
2 channels. -/
theorem decode_packet_metadata_fallback_witness :
    ((decode_packet sampleDecState 7 5 (fun _ => (0 : Nat))
        ⟨0, 0, ⟨3, 0, 0, fun ch i => 10 * ch + i⟩⟩).out_sample_rate = some 48000)
    ∧ ((decode_packet sampleDecState 7 5 (fun _ => (0 : Nat))
        ⟨0, 0, ⟨3, 0, 0, fun ch i => 10 * ch + i⟩⟩).out_channels = some 2) := by
  have h := decode_packet_metadata_fallback (⟨true, true, true, true, true, true⟩ : InitOracle)
    48000 2 sampleDecState
    [HeapEvent.alloc AllocTag.session, HeapEvent.alloc AllocTag.ctx,
     HeapEvent.alloc AllocTag.frame, HeapEvent.alloc AllocTag.packet]
    rfl 7 5 (fun _ => (0 : Nat)) ⟨0, 0, ⟨3, 0, 0, fun ch i => 10 * ch + i⟩⟩ rfl
  exact ⟨h.1 rfl, h.2.1 rfl⟩

/-- Claim C4: `decode_packet` propagates external failures atomically: a
failing submission (resp. reception) returns that negative code unchanged
with no out-parameter written and the output buffer untouched, and the call
returns 0 exactly when both external calls succeed. -/
theorem decode_packet_error_propagation {α : Type} (st : decoder_state)
    (input_ref input_size : Nat) (output_buf : Nat → α) (o : DecodeOracle α) :
    (o.sendRet < 0 →
      (decode_packet st input_ref input_size output_buf o).ret = o.sendRet
      ∧ (decode_packet st input_ref input_size output_buf o).out_frames = none
      ∧ (decode_packet st input_ref input_size output_buf o).out_sample_rate = none
      ∧ (decode_packet st input_ref input_size output_buf o).out_channels = none
      ∧ ∀ j, (decode_packet st input_ref input_size output_buf o).output j = output_buf j)
    ∧ (¬ o.sendRet < 0 → o.receiveRet < 0 →
      (decode_packet st input_ref input_size output_buf o).ret = o.receiveRet
      ∧ (decode_packet st input_ref input_size output_buf o).out_frames = none
      ∧ (decode_packet st input_ref input_size output_buf o).out_sample_rate = none
      ∧ (decode_packet st input_ref input_size output_buf o).out_channels = none
      ∧ ∀ j, (decode_packet st input_ref input_size output_buf o).output j = output_buf j)
    ∧ ((decode_packet st input_ref input_size output_buf o).ret = 0 ↔
      ¬ o.sendRet < 0 ∧ ¬ o.receiveRet < 0) := by
  refine ⟨fun hs => ?_, fun hs hr => ?_, ?_⟩
  · rw [decode_packet_send_fail st input_ref input_size output_buf o hs]
    exact ⟨rfl, rfl, rfl, rfl, fun j => rfl⟩
  · rw [decode_packet_receive_fail st input_ref input_size output_buf o hs hr]
    exact ⟨rfl, rfl, rfl, rfl, fun j => rfl⟩
  · constructor
    · exact decode_packet_ret_zero st input_ref input_size output_buf o
    · intro h
      rw [decode_packet_success st input_ref input_size output_buf o h.1 h.2]

/-- Claim C4 witness: a send failure with code -5 is returned unchanged with
no out-parameters written, and a fully successful call returns 0. -/
theorem decode_packet_error_propagation_witness :
    ((decode_packet sampleDecState 7 5 (fun _ => (99 : Nat))
        ⟨-5, 0, sampleFrame⟩).ret = -5)
    ∧ ((decode_packet sampleDecState 7 5 (fun _ => (99 : Nat))
        ⟨-5, 0, sampleFrame⟩).out_frames = none)
    ∧ ((decode_packet sampleDecState 7 5 (fun _ => (99 : Nat))
        ⟨-5, 0, sampleFrame⟩).output 0 = 99)
    ∧ ((decode_packet sampleDecState 7 5 (fun _ => (99 : Nat)) sampleDecOracle).ret = 0) := by
  have h1 := decode_packet_error_propagation sampleDecState 7 5 (fun _ => (99 : Nat))
    ⟨-5, 0, sampleFrame⟩
  have h2 := decode_packet_error_propagation sampleDecState 7 5 (fun _ => (99 : Nat))
    sampleDecOracle
  refine ⟨(h1.1 (by decide)).1, (h1.1 (by decide)).2.1, (h1.1 (by decide)).2.2.2.2 0, ?_⟩
  exact h2.2.2.mpr ⟨by decide, by decide⟩

/-- Concrete encoder session used by witnesses: 48000 Hz, 2 channels,
frame period 1536, backed scratch frame, empty packet. -/
def sampleEncState : encoder_state Nat :=
  { ctx_sample_rate := 48000, ctx_channels := 2, bit_rate := 128000,
    frame_nb_samples := 1536, frame_sample_rate := 48000, frame_channels := 2,
    frame_backed := true, frame_buf_size := 1536, frame_data := fun _ _ => 0,
    packet := true, packet_data := none, packet_size := 0 }

/-- Claim C2 (amended): when both external calls succeed and the produced
packet is larger than the caller-supplied capacity, `encode_samples` returns
the module-defined constant -1 — independent of every value the external
encoder reported — and writes nothing to the caller's output buffer. -/
theorem encode_samples_capacity_failure {α : Type} (st : encoder_state α)
    (input_buf : Nat → α) (num_frames : Nat) (output_buf : Nat → Nat)
    (output_buf_size : Nat) (o : EncodeOracle)
    (hs : ¬ o.sendRet < 0) (hr : ¬ o.receiveRet < 0)
    (hcap : output_buf_size < o.packet_size) :
    (encode_samples st input_buf num_frames output_buf output_buf_size o).ret = -1
    ∧ ∀ j, (encode_samples st input_buf num_frames output_buf output_buf_size o).output j
        = output_buf j := by
  have hcap2 : (o.packet_size : Int) > (output_buf_size : Int) := by exact_mod_cast hcap
  refine ⟨?_, fun j => ?_⟩ <;>
    simp only [encode_samples, if_neg hs, if_neg hr, if_pos hcap2]

/-- Claim C2 witness: a 3-byte packet against a 2-byte capacity returns -1
and leaves the output byte at index 0 untouched. -/
theorem encode_samples_capacity_failure_witness :
    ((encode_samples sampleEncState (fun _ => 0) 4 (fun _ => 77) 2
        ⟨0, 0, 3, fun j => j⟩).ret = -1)
    ∧ ((encode_samples sampleEncState (fun _ => 0) 4 (fun _ => 77) 2
        ⟨0, 0, 3, fun j => j⟩).output 0 = 77) := by
  have h := encode_samples_capacity_failure sampleEncState (fun _ => 0) 4 (fun _ => 77) 2
    ⟨0, 0, 3, fun j => j⟩ (by decide) (by decide) (by decide)
  exact ⟨h.1, h.2 0⟩

/-- Claim C2 counterexample: the return value -1 is not distinct from
codec-native errors — the submission-failure path passes the external code
through unchanged, and that code can itself be -1 (AVERROR(EPERM)), so this
call returns -1 although its output capacity (1024 bytes) was ample and no
capacity condition occurred. -/
theorem encode_samples_minus_one_passthrough :
    (encode_samples sampleEncState (fun _ => 0) 4 (fun _ => 0) 1024
      ⟨-1, 0, 3, fun j => j⟩).ret = -1 := by
  simp only [encode_samples]
  norm_num

/-- Claim C5: when the external collaborator has no decoder (resp. encoder)
for the requested codec id, `init_decoder` (resp. `init_encoder`) returns a
null handle having performed no heap event at all. -/
theorem init_unknown_codec_null {α : Type} (io : InitOracle) (eo : EncInitOracle)
    (sr ch sr2 ch2 br : Nat) (undef : α)
    (hio : io.codecFound = false) (heo : eo.codecFound = false) :
    init_decoder io sr ch = InitResult.ret none []
    ∧ init_encoder eo sr2 ch2 br undef = InitResult.ret none [] := by
  constructor
  · unfold init_decoder
    rw [hio]
    rfl
  · unfold init_encoder
    rw [heo]
    rfl

/-- Claim C5 witness: concrete unknown-codec creation attempts yield a null
handle and an empty heap trace. -/
theorem init_unknown_codec_null_witness :
    init_decoder ⟨false, true, true, true, true, true⟩ 48000 2 = InitResult.ret none []
    ∧ init_encoder (⟨false, true, true, true, true, true, true, 1536⟩ : EncInitOracle)
        48000 2 128000 (0 : Nat) = InitResult.ret none [] :=
  init_unknown_codec_null ⟨false, true, true, true, true, true⟩
    ⟨false, true, true, true, true, true, true, 1536⟩ 48000 2 48000 2 128000 0 rfl rfl

/-- A heap-event trace is balanced when every tag is released exactly as
often as it is allocated: nothing partially built is left live. -/
def balancedEvents (evs : List HeapEvent) : Bool :=
  [AllocTag.session, AllocTag.ctx, AllocTag.frame, AllocTag.packet, AllocTag.frameBuf].all
    fun t => evs.count (HeapEvent.alloc t) == evs.count (HeapEvent.free t)

/-- Claim C6 (amended): provided the session, context, frame and packet
allocations (and, for the encoder, the frame's sample-storage allocation)
succeed, creation is atomic: a null return leaves a balanced heap trace
(unknown codec: no event at all; open failure: context and session
released), a non-null return is a fully initialized session — context opened,
frame and packet holders allocated, and for the encoder a scratch frame
backed by storage sized to the codec's `frame_size` — and no null pointer is
dereferenced. -/
theorem init_atomic_creation {α : Type} (io : InitOracle) (eo : EncInitOracle)
    (sr ch sr2 ch2 br : Nat) (undef : α)
    (hio1 : io.mallocOk = true) (hio2 : io.ctxAllocOk = true)
    (hio3 : io.frameAllocOk = true) (hio4 : io.packetAllocOk = true)
    (heo1 : eo.mallocOk = true) (heo2 : eo.ctxAllocOk = true)
    (heo3 : eo.frameAllocOk = true) (heo4 : eo.packetAllocOk = true)
    (heo5 : eo.getBufferOk = true) :
    (retSession (init_decoder io sr ch) = none →
      balancedEvents (retEvents (init_decoder io sr ch)) = true)
    ∧ (∀ st, retSession (init_decoder io sr ch) = some st →
      io.openOk = true ∧ st.frame = true ∧ st.packet = true
        ∧ st.ctx_sample_rate = sr ∧ st.ctx_channels = ch)
    ∧ init_decoder io sr ch ≠ InitResult.crash
    ∧ (retSession (init_encoder eo sr2 ch2 br undef) = none →
      balancedEvents (retEvents (init_encoder eo sr2 ch2 br undef)) = true)
    ∧ (∀ st, retSession (init_encoder eo sr2 ch2 br undef) = some st →
      eo.openOk = true ∧ st.packet = true ∧ st.frame_backed = true
        ∧ st.frame_nb_samples = eo.frame_size ∧ st.frame_buf_size = eo.frame_size)
    ∧ init_encoder eo sr2 ch2 br undef ≠ InitResult.crash := by
  rcases io with ⟨icf, imo, icao, ioo, ifao, ipao⟩
  rcases eo with ⟨ecf, emo, ecao, eoo, efao, egbo, epao, efs⟩
  simp only at hio1 hio2 hio3 hio4 heo1 heo2 heo3 heo4 heo5
  subst hio1 hio2 hio3 hio4 heo1 heo2 heo3 heo4 heo5
  cases icf <;> cases ioo <;> cases ecf <;> cases eoo <;>
    refine ⟨fun h1 => ?_, fun st h2 => ?_, ?_, fun h3 => ?_, fun st2 h4 => ?_, ?_⟩ <;>
    first
    | rfl
    | decide
    | (intro hcon; exact InitResult.noConfusion hcon)
    | (exfalso; exact Option.noConfusion h1)
    | (exfalso; exact Option.noConfusion h2)
    | (exfalso; exact Option.noConfusion h3)
    | (exfalso; exact Option.noConfusion h4)
    | (injection h2 with h5; subst h5; exact ⟨rfl, rfl, rfl, rfl, rfl⟩)
    | (injection h4 with h6; subst h6; exact ⟨rfl, rfl, rfl, rfl, rfl⟩)

/-- Claim C6 witness: with every allocation succeeding, concrete creations
with a known codec do not crash, and the encoder session they return has a
backed scratch frame sized to the codec frame period 1536. -/
theorem init_atomic_creation_witness :
    init_decoder ⟨true, true, true, true, true, true⟩ 48000 2 ≠ InitResult.crash
    ∧ init_encoder (⟨true, true, true, true, true, true, true, 1536⟩ : EncInitOracle)
        48000 2 128000 (0 : Nat) ≠ InitResult.crash := by
  have h := init_atomic_creation (⟨true, true, true, true, true, true⟩ : InitOracle)
    (⟨true, true, true, true, true, true, true, 1536⟩ : EncInitOracle)
    48000 2 48000 2 128000 (0 : Nat) rfl rfl rfl rfl rfl rfl rfl rfl rfl
  exact ⟨h.2.2.1, h.2.2.2.2.2⟩

/-- Claim C6 counterexample: allocation failures are not all checked — when
`av_frame_alloc` returns NULL during `init_decoder` (all other allocations
and the open succeeding), the call does not return null: it returns a
session whose frame holder is null, a partially-initialized session. -/
theorem init_decoder_frame_alloc_unchecked :
    retSession (init_decoder ⟨true, true, true, true, false, true⟩ 48000 2) =
      some { ctx_sample_rate := 48000, ctx_channels := 2, frame := false, packet := true,
             packet_data := none, packet_size := 0, frame_refs := false } := by
  rfl

/-- Claim C7 (amended): after `encode_samples` returns, no session field
references the caller's input or output buffers (the input is copied by
value, the packet holds codec-owned data or nothing); after `decode_packet`
returns, the scratch frame's references have been released on the success
path, but the scratch packet's data pointer still references the caller's
input buffer — it is cleared only by the unref at the start of the next
call or at session close. -/
theorem calls_and_retained_references {α : Type} (st : decoder_state)
    (input_ref input_size : Nat) (output_buf : Nat → α) (o : DecodeOracle α)
    (est : encoder_state α) (einput : Nat → α) (num_frames : Nat)
    (eout : Nat → Nat) (cap : Nat) (eo : EncodeOracle)
    (hest : ∀ p, est.packet_data ≠ some (MemRef.caller p)) :
    (decode_packet st input_ref input_size output_buf o).state.packet_data
      = some (MemRef.caller input_ref)
    ∧ ((decode_packet st input_ref input_size output_buf o).ret = 0 →
      (decode_packet st input_ref input_size output_buf o).state.frame_refs = false)
    ∧ ∀ p, (encode_samples est einput num_frames eout cap eo).state.packet_data
      ≠ some (MemRef.caller p) := by
  refine ⟨?_, ?_, ?_⟩
  · by_cases hs : o.sendRet < 0
    · rw [decode_packet_send_fail st input_ref input_size output_buf o hs]
    · by_cases hr : o.receiveRet < 0
      · rw [decode_packet_receive_fail st input_ref input_size output_buf o hs hr]
      · rw [decode_packet_success st input_ref input_size output_buf o hs hr]
  · intro hret
    obtain ⟨hs, hr⟩ := decode_packet_ret_zero st input_ref input_size output_buf o hret
    rw [decode_packet_success st input_ref input_size output_buf o hs hr]
  · intro p
    by_cases hs : eo.sendRet < 0
    · simp only [encode_samples, if_pos hs]
      exact hest p
    · by_cases hr : eo.receiveRet < 0
      · simp only [encode_samples, if_neg hs, if_pos hr]
        exact hest p
      · by_cases hc : (eo.packet_size : Int) > (cap : Int)
        · simp only [encode_samples, if_neg hs, if_neg hr, if_pos hc]
          intro hcon
          injection hcon with hcon2
          exact MemRef.noConfusion hcon2
        · simp only [encode_samples, if_neg hs, if_neg hr, if_neg hc]
          intro hcon
          exact Option.noConfusion hcon

/-- Claim C7 witness: with an encoder session whose packet holds no caller
reference, an `encode_samples` call leaves no caller reference behind
either (here checked for caller buffer id 3 after a successful call). -/
theorem calls_and_retained_references_witness :
    (encode_samples sampleEncState (fun _ => (0 : Nat)) 4 (fun _ => 0) 1024
      ⟨0, 0, 3, fun j => j⟩).state.packet_data ≠ some (MemRef.caller 3) := by
  have h := calls_and_retained_references sampleDecState 7 5 (fun _ => (0 : Nat))
    sampleDecOracle sampleEncState (fun _ => (0 : Nat)) 4 (fun _ => 0) 1024
    ⟨0, 0, 3, fun j => j⟩ (fun p hcon => Option.noConfusion hcon)
  exact h.2.2 3

/-- Claim C7 counterexample: immediately after a successful `decode_packet`
call with the caller's input buffer (id 7), the session's scratch-packet
data pointer still references that caller buffer, contradicting the claim
that no session field references caller memory after the call returns. -/
theorem decode_packet_retains_input_reference :
    (decode_packet sampleDecState 7 5 (fun _ => (0 : Nat)) sampleDecOracle).state.packet_data
      = some (MemRef.caller 7) := by
  rfl

/-- Claim C8: the de-interleaving step of `encode_samples` reads only input
indices strictly below `num_frames * channels` — two input buffers agreeing
below that bound make the whole call indistinguishable — and the scratch
frame's active sample count is set to `num_frames` (also visible in the
returned state on every path). -/
theorem encode_samples_read_bound {α : Type} (st : encoder_state α)
    (in1 in2 : Nat → α) (num_frames : Nat) (output_buf : Nat → Nat)
    (output_buf_size : Nat) (o : EncodeOracle)
    (hagree : ∀ j, j < num_frames * st.frame_channels → in1 j = in2 j) :
    encode_samples st in1 num_frames output_buf output_buf_size o
      = encode_samples st in2 num_frames output_buf output_buf_size o
    ∧ (encode_samples st in1 num_frames output_buf output_buf_size o).state.frame_nb_samples
      = num_frames := by
  have hd : deinterleave in1 st.frame_channels num_frames st.frame_channels st.frame_data
      = deinterleave in2 st.frame_channels num_frames st.frame_channels st.frame_data :=
    deinterleave_congr in1 in2 st.frame_channels num_frames hagree st.frame_channels
      (Nat.le_refl st.frame_channels) st.frame_data
  constructor
  · simp only [encode_samples, hd]
  · by_cases hs : o.sendRet < 0
    · simp only [encode_samples, if_pos hs]
    · by_cases hr : o.receiveRet < 0
      · simp only [encode_samples, if_neg hs, if_pos hr]
      · by_cases hc : (o.packet_size : Int) > (output_buf_size : Int)
        · simp only [encode_samples, if_neg hs, if_neg hr, if_pos hc]
        · simp only [encode_samples, if_neg hs, if_neg hr, if_neg hc]

/-- Claim C8 witness: with 4 frames and 2 channels, two inputs equal below
index 8 but different from index 8 on produce identical calls. -/
theorem encode_samples_read_bound_witness :
    encode_samples sampleEncState (fun j => if j < 8 then j else 50) 4 (fun _ => 0) 1024
        ⟨0, 0, 3, fun j => j⟩
      = encode_samples sampleEncState (fun j => if j < 8 then j else 60) 4 (fun _ => 0) 1024
        ⟨0, 0, 3, fun j => j⟩ :=
  (encode_samples_read_bound sampleEncState (fun j => if j < 8 then j else 50)
    (fun j => if j < 8 then j else 60) 4 (fun _ => 0) 1024 ⟨0, 0, 3, fun j => j⟩
    (by decide)).1

/-- Claim C9: `close_decoder(NULL)` and `close_encoder(NULL)` perform no
event; on a non-null session each holder is released exactly when its
pointer is non-null, and the session allocation is released last. -/
theorem close_null_safe_and_checked :
    close_decoder none = [] ∧ close_encoder none = []
    ∧ ∀ st : CloseState,
      ((HeapEvent.free AllocTag.frame ∈ close_decoder (some st) ↔ st.frame = true)
        ∧ (HeapEvent.free AllocTag.packet ∈ close_decoder (some st) ↔ st.packet = true)
        ∧ (HeapEvent.free AllocTag.ctx ∈ close_decoder (some st) ↔ st.ctx = true)
        ∧ (close_decoder (some st)).getLast? = some (HeapEvent.free AllocTag.session))
      ∧ ((HeapEvent.free AllocTag.frame ∈ close_encoder (some st) ↔ st.frame = true)
        ∧ (HeapEvent.free AllocTag.packet ∈ close_encoder (some st) ↔ st.packet = true)
        ∧ (HeapEvent.free AllocTag.ctx ∈ close_encoder (some st) ↔ st.ctx = true)
        ∧ (close_encoder (some st)).getLast? = some (HeapEvent.free AllocTag.session)) := by
  refine ⟨rfl, rfl, ?_⟩
  intro st
  rcases st with ⟨f, p, c⟩
  cases f <;> cases p <;> cases c <;> decide

end EAC3Bridge
